import Mathlib

/-!
Verification development for `packages/api/scripts/create-wrangler-config.py`,
a single-purpose utility that generates `wrangler.toml` from
`wrangler.example.toml` by substituting the `${D1_DATABASE_ID}` placeholder.

Text is modelled as `List Char`.  Python string primitives used by the script
(`str.strip`, `str.splitlines`, `str.replace`, `in`, `str.count`,
`str.startswith`, `str.endswith`) and the three regular expressions of the
script are translated here with Python's documented semantics (in particular:
`$` also matches just before a final newline, `\s` is Unicode whitespace,
`splitlines` splits on the Unicode line-boundary set, negated character
classes match newlines).  All definitions are structurally recursive so that
concrete runs reduce inside the kernel.
-/

/-- Text buffers of the script are plain character lists. -/
abbrev Str := List Char

/-- Python `str.isspace` / regex `\s` character set (Unicode whitespace). -/
def isPySpace (c : Char) : Bool :=
  decide (c = ' ' ∨ c = '\t' ∨ c = '\n' ∨ c = '\x0b' ∨ c = '\x0c' ∨ c = '\r' ∨
    c = '\x1c' ∨ c = '\x1d' ∨ c = '\x1e' ∨ c = '\x1f' ∨ c = '\x85' ∨ c = '\xa0' ∨
    c = ' ' ∨ (' ' ≤ c ∧ c ≤ ' ') ∨ c = ' ' ∨ c = ' ' ∨
    c = ' ' ∨ c = ' ' ∨ c = '　')

/-- Characters on which Python `str.splitlines` splits. -/
def isLineBreak (c : Char) : Bool :=
  decide (c = '\n' ∨ c = '\r' ∨ c = '\x0b' ∨ c = '\x0c' ∨ c = '\x1c' ∨
    c = '\x1d' ∨ c = '\x1e' ∨ c = '\x85' ∨ c = ' ' ∨ c = ' ')

/-- Python `str.strip()`: drop leading and trailing whitespace. -/
def pyStrip (s : Str) : Str :=
  ((s.dropWhile isPySpace).reverse.dropWhile isPySpace).reverse

/-- Python substring test `pat in hay`. -/
def containsSub : Str → Str → Bool
  | [], pat => pat.isEmpty
  | h :: t, pat => pat.isPrefixOf (h :: t) || containsSub t pat

/-- Helper for `countOccs`: scan with a skip counter so that matches do not
overlap, mirroring Python `str.count`. -/
def countOccsGo (pat : Str) : Nat → Str → Nat
  | _, [] => 0
  | 0, h :: t =>
    if pat.isPrefixOf (h :: t) then 1 + countOccsGo pat (pat.length - 1) t
    else countOccsGo pat 0 t
  | skip + 1, _ :: t => countOccsGo pat skip t

/-- Python `hay.count(pat)`: number of non-overlapping occurrences. -/
def countOccs (hay pat : Str) : Nat :=
  if pat.isEmpty then hay.length + 1 else countOccsGo pat 0 hay

/-- Helper for `replaceAll` over a nonempty pattern, with a skip counter. -/
def replaceAllGo (pat rep : Str) : Nat → Str → Str
  | _, [] => []
  | 0, h :: t =>
    if pat.isPrefixOf (h :: t) then rep ++ replaceAllGo pat rep (pat.length - 1) t
    else h :: replaceAllGo pat rep 0 t
  | skip + 1, _ :: t => replaceAllGo pat rep skip t

/-- Helper for Python `str.replace` with an empty pattern (inserts the
replacement at every position). -/
def replaceEmptyPat (rep : Str) : Str → Str
  | [] => rep
  | c :: t => rep ++ c :: replaceEmptyPat rep t

/-- Python `hay.replace(pat, rep)` (replace all occurrences, left to right,
non-overlapping). -/
def replaceAll (hay pat rep : Str) : Str :=
  if pat.isEmpty then replaceEmptyPat rep hay else replaceAllGo pat rep 0 hay

/-- Helper for `splitlines`: `cur` holds the current line reversed; `sawCR`
records that the previous character was a `'\r'` whose line has already been
emitted, so that an immediately following `'\n'` is part of the same `"\r\n"`
boundary and is swallowed. -/
def splitlinesGo (cur : Str) (sawCR : Bool) : Str → List Str
  | [] => if cur = [] then [] else [cur.reverse]
  | c :: rest =>
    if sawCR ∧ c = '\n' then splitlinesGo cur false rest
    else if c = '\r' then cur.reverse :: splitlinesGo [] true rest
    else if isLineBreak c then cur.reverse :: splitlinesGo [] false rest
    else splitlinesGo (c :: cur) false rest

/-- Python `str.splitlines(keepends=False)`. -/
def splitlines (s : Str) : List Str := splitlinesGo [] false s

/-- Python `"\n".join(lines)`. -/
def joinNl : List Str → Str
  | [] => []
  | [l] => l
  | l :: l2 :: t => l ++ '\n' :: joinNl (l2 :: t)


/-! ### The three regular expressions of the script -/

/-- Literal `database_id` (first element of the extraction pattern). -/
def dbWordLit : Str := "database_id".data

/-- Literal `database_id = ` used by the normalizer's `startswith` test. -/
def dbKeyLit : Str := "database_id = ".data

/-- Literal `database_id = "` out of which the normalizer rebuilds the line. -/
def dbQuoteLit : Str := "database_id = \"".data

/-- Literal `database_id = ""` (the post-substitution emptiness gate). -/
def emptyAssign : Str := "database_id = \"\"".data

/-- The placeholder token `${D1_DATABASE_ID}`. -/
def placeholder : Str := "${D1_DATABASE_ID}".data

/-- Attempt to match the regex `database_id\s*=\s*"([^"]+)"` at the head of
`cs`; returns the captured group.  Greedy `\s*` and `[^"]+` coincide with
maximal munch here because the following literals (`=`, `"`) are not
whitespace resp. excluded from the class. -/
def matchDbIdAt (cs : Str) : Option Str :=
  if dbWordLit.isPrefixOf cs then
    match (cs.drop dbWordLit.length).dropWhile isPySpace with
    | '=' :: r3 =>
      match r3.dropWhile isPySpace with
      | '"' :: r5 =>
        if r5.takeWhile (fun c => c != '"') = [] then none
        else if r5.dropWhile (fun c => c != '"') = [] then none
        else some (r5.takeWhile (fun c => c != '"'))
      | _ => none
    | _ => none
  else none

/-- Python `re.search` of `database_id\s*=\s*"([^"]+)"`: leftmost match,
returning the captured group. -/
def searchDbId : Str → Option Str
  | [] => none
  | c :: rest =>
    match matchDbIdAt (c :: rest) with
    | some v => some v
    | none => searchDbId rest

/-- `get_database_id_from_local` of the script, applied to the text of
`wrangler.toml.local` (file absence/unreadability is modelled by the caller
passing `none` for the file): `match.group(1).strip()` of the first match,
`None` when there is no match. -/
def get_database_id_from_local (content : Str) : Option Str :=
  (searchDbId content).map pyStrip

/-- Hexadecimal digit, case-insensitive (regex class `[0-9a-fA-F]`). -/
def isHexDigit (c : Char) : Bool :=
  decide (('0' ≤ c ∧ c ≤ '9') ∨ ('a' ≤ c ∧ c ≤ 'f') ∨ ('A' ≤ c ∧ c ≤ 'F'))

/-- Consume exactly `n` hexadecimal digits. -/
def takeHex : Nat → Str → Option Str
  | 0, cs => some cs
  | _ + 1, [] => none
  | n + 1, c :: cs => if isHexDigit c then takeHex n cs else none

/-- Consume a literal hyphen. -/
def expectDash : Str → Option Str
  | '-' :: cs => some cs
  | _ => none

/-- Full-string match of the UUID body
`[0-9a-fA-F]{8}-[0-9a-fA-F]{4}-[0-9a-fA-F]{4}-[0-9a-fA-F]{4}-[0-9a-fA-F]{12}`
(8-4-4-4-12 hex groups).  This is also the spec's reading of the validator:
the *entire* string matches the UUID-shaped pattern. -/
def uuidGroups (cs : Str) : Bool :=
  match takeHex 8 cs >>= expectDash >>= takeHex 4 >>= expectDash >>= takeHex 4
      >>= expectDash >>= takeHex 4 >>= expectDash >>= takeHex 12 with
  | some [] => true
  | _ => false

/-- `validate_database_id` of the script:
`bool(re.match(r"^[0-9a-fA-F]{8}-...-[0-9a-fA-F]{12}$", db_id))`.
Python's `$` (without `re.MULTILINE`) matches at the end of the string *or
just before a newline at the end of the string*, so a trailing `'\n'` after
the UUID body is also accepted. -/
def validate_database_id (s : Str) : Bool :=
  uuidGroups s || (s.getLast? = some '\n' && uuidGroups s.dropLast)


/-! ### Line normalizer (the cleanup loop over `splitlines`) -/

/-- Result of the normalization loop: fatal "value is empty" exit, fatal
"line not found" exit, or the updated line list. -/
inductive NormResult where
  | fatalEmpty : NormResult
  | notFound : NormResult
  | ok : List Str → NormResult
deriving DecidableEq

/-- Prepend a skipped line to the result of normalizing the remaining lines. -/
def keepLine (l : Str) : NormResult → NormResult
  | .ok ls => .ok (l :: ls)
  | r => r

/-- The normalized replacement for a carrier line `l` whose extracted value is
`v`: `f'{indent_str}database_id = "{db_value}"'` with
`indent_str = re.match(r"^(\s*)", line).group(1)` and
`db_value = match.group(1).strip()`. -/
def normLine (l v : Str) : Str :=
  l.takeWhile isPySpace ++ dbQuoteLit ++ pyStrip v ++ ['"']

/-- The cleanup loop of `main` (lines 128-152 of the script): find the first
line whose stripped form starts with `database_id = ` *and* on which the
extraction regex matches; exit fatally if its stripped value is empty, else
rewrite exactly that line and stop (`break`).  A line that passes the
`startswith` test but not the regex is skipped and the scan continues.  If no
line is rewritten the script exits fatally ("database_id line not found"). -/
def normalizeLines : List Str → NormResult
  | [] => .notFound
  | l :: rest =>
    if dbKeyLit.isPrefixOf (pyStrip l) then
      match searchDbId l with
      | some v =>
        if pyStrip v = [] then .fatalEmpty
        else .ok (normLine l v :: rest)
      | none => keepLine l (normalizeLines rest)
    else keepLine l (normalizeLines rest)

/-- Join the lines and ensure a single trailing newline is appended when the
joined text is nonempty and does not already end with one
(`if output and not output.endswith("\n"): output += "\n"`). -/
def finishOutput (ls : List Str) : Str :=
  let o := joinNl ls
  if o = [] then o
  else if o.getLast? = some '\n' then o
  else o ++ ['\n']

/-! ### Final verification regex, `re.MULTILINE` -/

/-- Attempt to match `\s*database_id\s*=\s*"[^"]+"\s*$` starting at a `^`
anchor position, with `re.MULTILINE` semantics: `\s` may cross newlines, and
the final `$` accepts either the end of the text or a position just before
some `'\n'` inside the trailing whitespace run (regex backtracking may stop
the trailing `\s*` early). -/
def mlLineOk (cs : Str) : Bool :=
  let c1 := cs.dropWhile isPySpace
  if dbWordLit.isPrefixOf c1 then
    match (c1.drop dbWordLit.length).dropWhile isPySpace with
    | '=' :: r3 =>
      match r3.dropWhile isPySpace with
      | '"' :: r5 =>
        let v := r5.takeWhile (fun c => c != '"')
        if v = [] then false
        else
          match r5.dropWhile (fun c => c != '"') with
          | '"' :: r6 =>
            (r6.dropWhile isPySpace).isEmpty || (r6.takeWhile isPySpace).contains '\n'
          | _ => false
      | _ => false
    | _ => false
  else false

/-- Scan the `re.MULTILINE` anchor positions after each `'\n'`. -/
def mlSearchAux : Str → Bool
  | [] => false
  | '\n' :: rest => mlLineOk rest || mlSearchAux rest
  | _ :: rest => mlSearchAux rest

/-- `re.search` of `^\s*database_id\s*=\s*"[^"]+"\s*$` with `re.MULTILINE`:
try the start of the text and every position following a `'\n'`. -/
def mlSearch (cs : Str) : Bool := mlLineOk cs || mlSearchAux cs


/-! ### The pipeline -/

/-- Resolution of the database id (lines 47-72 of the script).  `envV` is
`os.environ.get("D1_DATABASE_ID")`; `localF` the content of
`wrangler.toml.local` when that file exists and is readable.  Python
truthiness: an unset *or empty* environment variable falls back to the local
file; an empty resolution, or one that strips to empty, is a fatal exit
(returned here as `none`). -/
def resolveDbId (envV : Option Str) (localF : Option Str) : Option Str :=
  let d0 : Option Str :=
    match envV with
    | some v => if v.isEmpty then localF.bind get_database_id_from_local else some v
    | none => localF.bind get_database_id_from_local
  match d0 with
  | none => none
  | some v =>
    if v.isEmpty then none
    else if (pyStrip v).isEmpty then none else some (pyStrip v)

/-- The run environment of one invocation: the `D1_DATABASE_ID` environment
variable, the content of `wrangler.toml.local` (if present and readable), the
content of `wrangler.example.toml` (if present and readable) and the content
of a pre-existing `wrangler.toml` output file, which the script never reads
(it overwrites unconditionally). -/
structure Inputs where
  envVar : Option Str
  localFile : Option Str
  templateFile : Option Str
  priorOutput : Option Str

/-- Observable outcome of one run: the process exit status, the content
written to `wrangler.toml` (`none` when the write statement is never
reached), and whether the non-fatal UUID-format warning was printed. -/
structure RunResult where
  exitCode : Nat
  written : Option Str
  warnedFormat : Bool
deriving DecidableEq

/-- Lines 84-198 of the script: everything after the database id has been
resolved (and stripped).  Returns the exit status together with the text
written to the output file, `none` if the write is never reached.  The write
itself and the re-read for final verification are modelled as exact content
transfer. -/
def runTemplate (dbId : Str) (tf : Option Str) : Nat × Option Str :=
  match tf with
  | none => (1, none)
  | some content =>
    if !(containsSub content placeholder) then (1, none)
    else if containsSub (replaceAll content placeholder dbId) placeholder then (1, none)
    else if containsSub (replaceAll content placeholder dbId) emptyAssign then (1, none)
    else
      match normalizeLines (splitlines (replaceAll content placeholder dbId)) with
      | .fatalEmpty => (1, none)
      | .notFound => (1, none)
      | .ok ls =>
        if !(mlSearch (finishOutput ls)) then (1, some (finishOutput ls))
        else if containsSub (finishOutput ls) placeholder then (1, some (finishOutput ls))
        else (0, some (finishOutput ls))

/-- The whole `main()` of the script as a function of its run environment.
The format-validation warning (lines 74-80) is recorded but never affects
control flow. -/
def mainRun (inp : Inputs) : RunResult :=
  match resolveDbId inp.envVar inp.localFile with
  | none => ⟨1, none, false⟩
  | some dbId =>
    ⟨(runTemplate dbId inp.templateFile).1, (runTemplate dbId inp.templateFile).2,
      !(validate_database_id dbId)⟩

/-- A line of the form `<indent>database_id = "<value>"` with whitespace-only
indent, a non-empty value free of double quotes, and nothing after the
closing quote. -/
def isGoodDbLine (l : Str) : Bool :=
  let rest := l.dropWhile isPySpace
  if dbQuoteLit.isPrefixOf rest then
    let r := rest.drop dbQuoteLit.length
    let v := r.takeWhile (fun c => c != '"')
    !v.isEmpty && (r.dropWhile (fun c => c != '"') = ['"'])
  else false

/-- A line is a normalization candidate when its stripped form starts with
`database_id = ` and the extraction regex matches somewhere on it (the two
conditions of the cleanup loop before the emptiness check). -/
def isCand (l : Str) : Bool :=
  dbKeyLit.isPrefixOf (pyStrip l) && (searchDbId l).isSome

/-- A standard concrete uuid used by witnesses. -/
def uuidW : Str := "12345678-1234-1234-1234-123456789012".data

/-- A standard concrete template used by witnesses. -/
def templW : Str := "name = \"api\"\n[[d1_databases]]\ndatabase_id = \"${D1_DATABASE_ID}\"\n".data

/-- The output the pipeline writes for `uuidW`/`templW`. -/
def outW : Str :=
  "name = \"api\"\n[[d1_databases]]\ndatabase_id = \"12345678-1234-1234-1234-123456789012\"\n".data

/-- A local override file carrying a valid uuid value. -/
def localW : Str :=
  "[[d1_databases]]\ndatabase_id = \"abcdefab-abcd-abcd-abcd-abcdefabcdef\"\n".data

/-- A template with exactly one placeholder occurrence but no `database_id`
carrier line. -/
def tNoCarrier : Str := "x = \"${D1_DATABASE_ID}\"\n".data

/-- A template ending in three newlines (two trailing blank lines). -/
def tBlankTail : Str := "database_id = \"${D1_DATABASE_ID}\"\n\n\n".data


-- Quick sanity checks of the Python semantics.
example : splitlines "a\r\nb\rc\x0bd".data = ["a".data, "b".data, "c".data, "d".data] := by decide
example : splitlines "L\n\n\n".data = ["L".data, [], []] := by decide
example : splitlines [] = [] := by decide
example : joinNl ["L".data, [], []] = "L\n\n".data := by decide
example : countOccs "abcabc".data "abc".data = 2 := by decide
example : countOccs "aaa".data "aa".data = 1 := by decide
example : replaceAll "x${D}y".data "${D}".data "v".data = "xvy".data := by decide
example : containsSub "hello".data "ell".data = true := by decide
example : containsSub "hello".data "elo".data = false := by decide
example : pyStrip "  a b \t".data = "a b".data := by decide
example : validate_database_id "12345678-1234-1234-1234-123456789012".data = true := by decide
example : validate_database_id "12345678-1234-1234-1234-12345678901G".data = false := by decide
example : validate_database_id "12345678-1234-1234-1234-123456789012\n".data = true := by decide
example : validate_database_id "x12345678-1234-1234-1234-123456789012".data = false := by decide
example : validate_database_id "ABCDEFab-cdef-0123-4567-890abcdefABC".data = true := by decide
example : matchDbIdAt "database_id\n=\n\"v\" t".data = some "v".data := by decide
example : searchDbId "x database_id = \" a b \" tail".data = some " a b ".data := by decide
example : searchDbId "database_id = \"\"".data = none := by decide
example : get_database_id_from_local "junk\n# database_id = \" uuid-here \"\n".data
    = some "uuid-here".data := by decide
example : mlSearch "database_id\n= \"x\"".data = true := by decide
example : mlSearch "  database_id = \"x\"  \nrest".data = true := by decide
example : mlSearch "  database_id = \"x\"  rest".data = false := by decide
example : (mainRun ⟨some uuidW, none, some templW, none⟩).exitCode = 0 := by decide
example : (mainRun ⟨some uuidW, none, some templW, none⟩).written
    = some "name = \"api\"\n[[d1_databases]]\ndatabase_id = \"12345678-1234-1234-1234-123456789012\"\n".data := by decide
example : (mainRun ⟨none, none, some templW, none⟩).exitCode = 1 := by decide
example : isGoodDbLine "  database_id = \"abc\"".data = true := by decide
example : isGoodDbLine "  database_id = \"abc\" x".data = false := by decide

/-! ### Helper lemmas -/

theorem mem_of_mem_pyStrip {c : Char} {s : Str} (h : c ∈ pyStrip s) : c ∈ s := by
  unfold pyStrip at h
  rw [List.mem_reverse] at h
  have h2 : c ∈ (s.dropWhile isPySpace).reverse :=
    List.Sublist.mem h (List.dropWhile_sublist _)
  rw [List.mem_reverse] at h2
  exact List.Sublist.mem h2 (List.dropWhile_sublist _)

theorem breakFree_nl {c : Char} (h : isLineBreak c = false) : c ≠ '\n' := by
  intro hc; subst hc; simp [isLineBreak] at h

theorem breakFree_cr {c : Char} (h : isLineBreak c = false) : c ≠ '\r' := by
  intro hc; subst hc; simp [isLineBreak] at h

theorem splitlinesGo_ext {a : Str} (ha : ∀ c ∈ a, isLineBreak c = false) :
    ∀ (cur rest : Str), splitlinesGo cur false (a ++ '\n' :: rest)
      = (cur.reverse ++ a) :: splitlinesGo [] false rest := by
  induction a with
  | nil => intro cur rest; simp [splitlinesGo, isLineBreak]
  | cons c a ih =>
    intro cur rest
    have hc : isLineBreak c = false := ha c (by simp)
    have ha2 : ∀ x ∈ a, isLineBreak x = false := fun x hx => ha x (by simp [hx])
    show splitlinesGo cur false (c :: (a ++ '\n' :: rest)) = _
    rw [splitlinesGo]
    rw [if_neg (by simp), if_neg (breakFree_cr hc), if_neg (by simp [hc])]
    rw [ih ha2 (c :: cur) rest]
    simp

theorem splitlines_append_newline {a : Str} (ha : ∀ c ∈ a, isLineBreak c = false)
    (rest : Str) : splitlines (a ++ '\n' :: rest) = a :: splitlines rest := by
  unfold splitlines
  rw [splitlinesGo_ext ha [] rest]
  simp

theorem splitlines_joinNl : ∀ (ls : List Str), ls ≠ [] →
    (∀ l ∈ ls, ∀ c ∈ l, isLineBreak c = false) →
    splitlines (joinNl ls ++ ['\n']) = ls := by
  intro ls
  induction ls with
  | nil => intro h; exact absurd rfl h
  | cons x t ih =>
    intro _ hbf
    cases t with
    | nil =>
      rw [joinNl]
      have : x ++ ['\n'] = x ++ '\n' :: ([] : Str) := rfl
      rw [this, splitlines_append_newline (hbf x (by simp))]
      rfl
    | cons y t2 =>
      rw [joinNl]
      have : (x ++ '\n' :: joinNl (y :: t2)) ++ ['\n']
          = x ++ '\n' :: (joinNl (y :: t2) ++ ['\n']) := by simp
      rw [this, splitlines_append_newline (hbf x (by simp))]
      rw [ih (by simp) (fun l hl c hc => hbf l (by simp [hl]) c hc)]

theorem joinNl_concat : ∀ (init : List Str) (x : Str), init ≠ [] →
    joinNl (init ++ [x]) = joinNl init ++ '\n' :: x := by
  intro init
  induction init with
  | nil => intro x h; exact absurd rfl h
  | cons a t ih =>
    intro x _
    cases t with
    | nil => simp [joinNl]
    | cons b t2 =>
      have h2 := ih x (by simp)
      simp only [List.cons_append] at h2 ⊢
      rw [joinNl, h2, joinNl]
      simp

theorem joinNl_getLast {init : List Str} {x : Str} (hx : x ≠ []) :
    (joinNl (init ++ [x])).getLast? = x.getLast? := by
  cases init with
  | nil => simp [joinNl]
  | cons a t =>
    rw [joinNl_concat _ _ (by simp)]
    obtain ⟨c, hc⟩ : ∃ c, x.getLast? = some c := by
      cases h : x.getLast? with
      | none => exact absurd (List.getLast?_eq_none_iff.mp h) hx
      | some c => exact ⟨c, rfl⟩
    obtain ⟨ys, rfl⟩ := List.getLast?_eq_some_iff.mp hc
    rw [hc]
    rw [show ('\n' :: (ys ++ [c])) = ('\n' :: ys) ++ [c] from rfl]
    rw [← List.append_assoc]
    exact List.getLast?_concat _

theorem joinNl_ne_nil {ls : List Str} {y : Str} (hy : y ∈ ls) (hne : y ≠ []) :
    joinNl ls ≠ [] := by
  cases ls with
  | nil => cases hy
  | cons a t =>
    cases t with
    | nil =>
      simp only [List.mem_singleton] at hy
      subst hy
      simpa [joinNl] using hne
    | cons b t2 => simp [joinNl]

theorem splitlines_finishOutput {ls : List Str}
    (hbf : ∀ l ∈ ls, ∀ c ∈ l, isLineBreak c = false) :
    splitlines (finishOutput ls) = if ls.getLast? = some [] then ls.dropLast else ls := by
  cases hlast : ls.getLast? with
  | none =>
    have h0 : ls = [] := List.getLast?_eq_none_iff.mp hlast
    subst h0
    simp [finishOutput, joinNl, splitlines, splitlinesGo]
  | some x =>
    obtain ⟨init, rfl⟩ := List.getLast?_eq_some_iff.mp hlast
    by_cases hx : x = []
    · subst hx
      rw [if_pos rfl, List.dropLast_concat]
      cases init with
      | nil => simp [finishOutput, joinNl, splitlines, splitlinesGo]
      | cons a t =>
        have hj : joinNl ((a :: t) ++ [[]]) = joinNl (a :: t) ++ ['\n'] := by
          rw [joinNl_concat _ _ (by simp)]
        have ho : (joinNl (a :: t) ++ ['\n']).getLast? = some '\n' :=
          List.getLast?_concat _
        simp only [finishOutput, hj]
        rw [if_neg (by simp), if_pos ho]
        exact splitlines_joinNl (a :: t) (by simp)
          (fun l hl c hc => hbf l (by rcases List.mem_cons.mp hl with h | h <;> simp [h]) c hc)
    · rw [if_neg (by simpa using hx)]
      obtain ⟨c, hc⟩ : ∃ c, x.getLast? = some c := by
        cases h : x.getLast? with
        | none => exact absurd (List.getLast?_eq_none_iff.mp h) hx
        | some c => exact ⟨c, rfl⟩
      have hcx : c ∈ x := List.mem_of_getLast?_eq_some hc
      have hcb : isLineBreak c = false := hbf x (by simp) c hcx
      have honil : joinNl (init ++ [x]) ≠ [] := joinNl_ne_nil (y := x) (by simp) hx
      simp only [finishOutput]
      rw [if_neg honil, if_neg (by rw [joinNl_getLast hx, hc]; simp [breakFree_nl hcb])]
      exact splitlines_joinNl _ (by simp) hbf

theorem mem_splitlines_finishOutput {ls : List Str} {y : Str}
    (hbf : ∀ l ∈ ls, ∀ c ∈ l, isLineBreak c = false) (hy : y ∈ ls) (hne : y ≠ []) :
    y ∈ splitlines (finishOutput ls) := by
  rw [splitlines_finishOutput hbf]
  split
  · next h =>
    obtain ⟨init, hinit⟩ := List.getLast?_eq_some_iff.mp h
    subst hinit
    rw [List.dropLast_concat]
    rcases List.mem_append.mp hy with h1 | h1
    · exact h1
    · simp only [List.mem_singleton] at h1
      exact absurd h1 hne
  · exact hy

theorem splitlinesGo_breakfree : ∀ (cs cur : Str) (sawCR : Bool),
    (∀ c ∈ cur, isLineBreak c = false) →
    ∀ l ∈ splitlinesGo cur sawCR cs, ∀ c ∈ l, isLineBreak c = false := by
  intro cs
  induction cs with
  | nil =>
    intro cur sawCR hcur l hl
    rw [splitlinesGo] at hl
    split at hl
    · cases hl
    · simp only [List.mem_singleton] at hl
      subst hl
      intro c hc
      exact hcur c (List.mem_reverse.mp hc)
  | cons c0 rest ih =>
    intro cur sawCR hcur l hl
    rw [splitlinesGo] at hl
    split at hl
    · exact ih cur false hcur l hl
    · split at hl
      · rcases List.mem_cons.mp hl with rfl | hl2
        · intro c hc; exact hcur c (List.mem_reverse.mp hc)
        · exact ih [] true (by simp) l hl2
      · split at hl
        · rcases List.mem_cons.mp hl with rfl | hl2
          · intro c hc; exact hcur c (List.mem_reverse.mp hc)
          · exact ih [] false (by simp) l hl2
        · next hbrk =>
          refine ih (c0 :: cur) false ?_ l hl
          intro c hc
          rcases List.mem_cons.mp hc with rfl | hc2
          · simpa using hbrk
          · exact hcur c hc2

theorem splitlines_breakfree {s : Str} {l : Str} (hl : l ∈ splitlines s) :
    ∀ c ∈ l, isLineBreak c = false :=
  splitlinesGo_breakfree s [] false (by simp) l hl

theorem mem_joinNl : ∀ (ls : List Str) (c : Char), c ∈ joinNl ls →
    c = '\n' ∨ ∃ l, l ∈ ls ∧ c ∈ l := by
  intro ls
  induction ls with
  | nil => intro c hc; simp [joinNl] at hc
  | cons x t ih =>
    cases t with
    | nil =>
      intro c hc
      right
      exact ⟨x, by simp, by simpa [joinNl] using hc⟩
    | cons y t2 =>
      intro c hc
      rw [joinNl] at hc
      rcases List.mem_append.mp hc with h1 | h1
      · right; exact ⟨x, by simp, h1⟩
      · rcases List.mem_cons.mp h1 with rfl | h2
        · left; rfl
        · rcases ih c h2 with h3 | ⟨l, hl, hcl⟩
          · left; exact h3
          · right; exact ⟨l, by simp [hl], hcl⟩

theorem mem_finishOutput {ls : List Str} {c : Char} (hc : c ∈ finishOutput ls) :
    c = '\n' ∨ ∃ l, l ∈ ls ∧ c ∈ l := by
  simp only [finishOutput] at hc
  split at hc
  · exact mem_joinNl ls c hc
  · split at hc
    · exact mem_joinNl ls c hc
    · rcases List.mem_append.mp hc with h1 | h1
      · exact mem_joinNl ls c h1
      · left; simpa using h1

theorem countOccsGo_zero {pat hay : Str} (h : containsSub hay pat = false) :
    countOccsGo pat 0 hay = 0 := by
  induction hay with
  | nil => rfl
  | cons a t ih =>
    rw [containsSub, Bool.or_eq_false_iff] at h
    rw [countOccsGo, if_neg (by simp [h.1]), ih h.2]

theorem countOccs_zero {hay pat : Str} (h : containsSub hay pat = false) :
    countOccs hay pat = 0 := by
  have hp : pat.isEmpty = false := by
    cases pat with
    | nil =>
      have : containsSub hay [] = true := by cases hay <;> rfl
      rw [this] at h; cases h
    | cons p ps => rfl
  rw [countOccs, if_neg (by simp [hp]), countOccsGo_zero h]

theorem matchDbIdAt_mem {cs v : Str} (h : matchDbIdAt cs = some v) :
    ∀ c ∈ v, c ∈ cs ∧ (c != '"') = true := by
  rw [matchDbIdAt] at h
  split at h
  case isFalse => exact Option.noConfusion h
  case isTrue hpre =>
  split at h
  case h_2 => exact Option.noConfusion h
  case h_1 r3 heq =>
  split at h
  case h_2 => exact Option.noConfusion h
  case h_1 r5 heq2 =>
  split at h
  case isTrue => exact Option.noConfusion h
  case isFalse hv0 =>
  split at h
  case isTrue => exact Option.noConfusion h
  case isFalse hd0 =>
  obtain rfl : r5.takeWhile (fun c => c != '"') = v := Option.some.inj h
  intro c hc
  have hq : (c != '"') = true := List.mem_takeWhile_imp (p := fun z => z != '"') hc
  have h5 : c ∈ r5 := List.Sublist.mem hc (List.takeWhile_sublist _)
  have s1 : List.Sublist r5 r3 := by
    have h51 : List.Sublist ('"' :: r5) r3 := heq2 ▸ List.dropWhile_sublist _
    exact (List.sublist_cons_self '"' r5).trans h51
  have s2 : List.Sublist r3 cs := by
    have h3 : List.Sublist ('=' :: r3) (cs.drop dbWordLit.length) :=
      heq ▸ List.dropWhile_sublist _
    exact ((List.sublist_cons_self '=' r3).trans h3).trans (List.drop_sublist _ _)
  exact ⟨List.Sublist.mem h5 (s1.trans s2), hq⟩

theorem searchDbId_mem {l v : Str} (h : searchDbId l = some v) :
    ∀ c ∈ v, c ∈ l ∧ (c != '"') = true := by
  induction l with
  | nil => exact Option.noConfusion h
  | cons a t ih =>
    rw [searchDbId] at h
    split at h
    case h_1 v0 heq =>
      cases h
      exact matchDbIdAt_mem heq
    case h_2 =>
      intro c hc
      obtain ⟨h1, h2⟩ := ih h c hc
      exact ⟨by simp [h1], h2⟩

theorem matchDbIdAt_nil : matchDbIdAt [] = none := by decide

theorem keepLine_ok {l : Str} {r : NormResult} {ls2 : List Str}
    (h : keepLine l r = .ok ls2) : ∃ ls3, r = .ok ls3 ∧ ls2 = l :: ls3 := by
  cases r with
  | ok ls3 => exact ⟨ls3, rfl, (NormResult.ok.inj h).symm⟩
  | fatalEmpty => exact NormResult.noConfusion h
  | notFound => exact NormResult.noConfusion h

theorem normalizeLines_build : ∀ (pre : List Str) {l v : Str} (post : List Str),
    (∀ x ∈ pre, isCand x = false) →
    dbKeyLit.isPrefixOf (pyStrip l) = true → searchDbId l = some v →
    pyStrip v ≠ [] →
    normalizeLines (pre ++ l :: post) = .ok (pre ++ normLine l v :: post) := by
  intro pre
  induction pre with
  | nil =>
    intro l v post _ hk hs hv
    show normalizeLines (l :: post) = _
    rw [normalizeLines, if_pos hk, hs]
    show (if pyStrip v = [] then NormResult.fatalEmpty
      else NormResult.ok (normLine l v :: post)) = _
    rw [if_neg hv]
    rfl
  | cons x pre ih =>
    intro l v post hpre hk hs hv
    have hx : isCand x = false := hpre x (by simp)
    rw [List.cons_append, normalizeLines]
    by_cases hkx : dbKeyLit.isPrefixOf (pyStrip x) = true
    · cases hsx : searchDbId x with
      | some w =>
        rw [isCand, hkx, hsx] at hx
        simp at hx
      | none =>
        rw [if_pos hkx]
        show keepLine x (normalizeLines (pre ++ l :: post)) = _
        rw [ih post (fun y hy => hpre y (by simp [hy])) hk hs hv]
        rfl
    · rw [if_neg hkx]
      show keepLine x (normalizeLines (pre ++ l :: post)) = _
      rw [ih post (fun y hy => hpre y (by simp [hy])) hk hs hv]
      rfl

theorem normalizeLines_ok_elim : ∀ (ls ls2 : List Str), normalizeLines ls = .ok ls2 →
    ∃ l v, l ∈ ls ∧ searchDbId l = some v ∧ pyStrip v ≠ [] ∧ normLine l v ∈ ls2 ∧
      ∀ x ∈ ls2, x ∈ ls ∨ x = normLine l v := by
  intro ls
  induction ls with
  | nil =>
    intro ls2 h
    rw [normalizeLines] at h
    exact NormResult.noConfusion h
  | cons l0 rest ih =>
    intro ls2 h
    rw [normalizeLines] at h
    split at h
    case isTrue hk =>
      split at h
      case h_1 v hs =>
        split at h
        case isTrue => exact NormResult.noConfusion h
        case isFalse hv =>
          obtain rfl : normLine l0 v :: rest = ls2 := NormResult.ok.inj h
          refine ⟨l0, v, by simp, hs, hv, by simp, ?_⟩
          intro x hx
          rcases List.mem_cons.mp hx with rfl | hx2
          · right; rfl
          · left; simp [hx2]
      case h_2 hs =>
        obtain ⟨ls3, hrec, rfl⟩ := keepLine_ok h
        obtain ⟨l, v, hmem, hs2, hv2, hin, hall⟩ := ih ls3 hrec
        refine ⟨l, v, by simp [hmem], hs2, hv2, by simp [hin], ?_⟩
        intro x hx
        rcases List.mem_cons.mp hx with rfl | hx2
        · left; simp
        · rcases hall x hx2 with h3 | h3
          · left; simp [h3]
          · right; exact h3
    case isFalse =>
      obtain ⟨ls3, hrec, rfl⟩ := keepLine_ok h
      obtain ⟨l, v, hmem, hs2, hv2, hin, hall⟩ := ih ls3 hrec
      refine ⟨l, v, by simp [hmem], hs2, hv2, by simp [hin], ?_⟩
      intro x hx
      rcases List.mem_cons.mp hx with rfl | hx2
      · left; simp
      · rcases hall x hx2 with h3 | h3
        · left; simp [h3]
        · right; exact h3

theorem searchDbId_eq_none_iff {c : Str} :
    searchDbId c = none ↔ ∀ i, matchDbIdAt (c.drop i) = none := by
  induction c with
  | nil =>
    constructor
    · intro _ i
      rw [List.drop_nil]
      exact matchDbIdAt_nil
    · intro _; rfl
  | cons a t ih =>
    rw [searchDbId]
    constructor
    · intro h i
      split at h
      case h_1 v hm => exact Option.noConfusion h
      case h_2 hm =>
        cases i with
        | zero => simpa using hm
        | succ j => exact (ih.mp h) j
    · intro hall
      split
      case h_1 v hm =>
        have h0 := hall 0
        rw [List.drop_zero] at h0
        rw [hm] at h0
        exact Option.noConfusion h0
      case h_2 hm => exact ih.mpr (fun j => by simpa using hall (j + 1))

theorem searchDbId_eq_some_iff {c v : Str} :
    searchDbId c = some v ↔ ∃ i, matchDbIdAt (c.drop i) = some v ∧
      ∀ j, j < i → matchDbIdAt (c.drop j) = none := by
  induction c with
  | nil =>
    constructor
    · intro h; exact Option.noConfusion h
    · rintro ⟨i, hi, _⟩
      rw [List.drop_nil, matchDbIdAt_nil] at hi
      exact Option.noConfusion hi
  | cons a t ih =>
    rw [searchDbId]
    constructor
    · intro h
      split at h
      case h_1 v0 hm =>
        obtain rfl : v0 = v := Option.some.inj h
        exact ⟨0, by simpa using hm, fun j hj => absurd hj (Nat.not_lt_zero j)⟩
      case h_2 hm =>
        obtain ⟨i, hi, hprev⟩ := ih.mp h
        refine ⟨i + 1, by simpa using hi, ?_⟩
        intro j hj
        cases j with
        | zero => simpa using hm
        | succ k => simpa using hprev k (Nat.lt_of_succ_lt_succ hj)
    · rintro ⟨i, hi, hprev⟩
      split
      case h_1 v0 hm =>
        cases i with
        | zero =>
          rw [List.drop_zero] at hi
          exact hm.symm.trans hi
        | succ k =>
          have h0 : matchDbIdAt (a :: t) = none := by
            simpa using hprev 0 (Nat.succ_pos k)
          rw [hm] at h0
          exact Option.noConfusion h0
      case h_2 hm =>
        cases i with
        | zero =>
          rw [List.drop_zero, hm] at hi
          exact Option.noConfusion hi
        | succ k =>
          refine ih.mpr ⟨k, by simpa using hi, ?_⟩
          intro j hj
          simpa using hprev (j + 1) (Nat.succ_lt_succ hj)

theorem normLine_ne_nil (l v : Str) : normLine l v ≠ [] := by
  rw [normLine]
  intro h
  simp [dbQuoteLit] at h

theorem isGoodDbLine_build (ind dv : Str) (hind : ∀ c ∈ ind, isPySpace c = true)
    (hdv : dv ≠ []) (hq : ∀ c ∈ dv, (c != '"') = true) :
    isGoodDbLine (ind ++ (dbQuoteLit ++ (dv ++ ['"']))) = true := by
  have h1 : (ind ++ (dbQuoteLit ++ (dv ++ ['"']))).dropWhile isPySpace
      = dbQuoteLit ++ (dv ++ ['"']) := by
    rw [List.dropWhile_append_of_pos hind]
    rw [show dbQuoteLit ++ (dv ++ ['"'])
        = 'd' :: ("atabase_id = \"".data ++ (dv ++ ['"'])) from rfl]
    rw [List.dropWhile_cons_of_neg (by decide)]
  have h2 : dbQuoteLit.isPrefixOf (dbQuoteLit ++ (dv ++ ['"'])) = true :=
    List.isPrefixOf_iff_prefix.mpr (List.prefix_append _ _)
  have h3 : (dbQuoteLit ++ (dv ++ ['"'])).drop dbQuoteLit.length = dv ++ ['"'] :=
    List.drop_left _ _
  have h4 : (dv ++ ['"']).takeWhile (fun c => c != '"') = dv := by
    rw [List.takeWhile_append_of_pos hq]
    simp
  have h5 : (dv ++ ['"']).dropWhile (fun c => c != '"') = ['"'] := by
    rw [List.dropWhile_append_of_pos hq]
    rfl
  simp only [isGoodDbLine, h1, h2, h3, h4, h5, if_pos]
  simp [hdv]

theorem normLine_breakfree {l v : Str} (hl : ∀ c ∈ l, isLineBreak c = false)
    (hv : searchDbId l = some v) : ∀ c ∈ normLine l v, isLineBreak c = false := by
  intro c hc
  rw [normLine] at hc
  simp only [List.append_assoc, List.mem_append] at hc
  rcases hc with h1 | h1 | h1 | h1
  · exact hl c (List.Sublist.mem h1 (List.takeWhile_sublist _))
  · have hall : ∀ x ∈ dbQuoteLit, isLineBreak x = false := by decide
    exact hall c h1
  · exact hl c ((searchDbId_mem hv c (mem_of_mem_pyStrip h1)).1)
  · simp only [List.mem_singleton] at h1
    subst h1
    decide

theorem runTemplate_written {db : Str} {tf : Option Str} {out : Str}
    (h : (runTemplate db tf).2 = some out) :
    ∃ content ls, tf = some content ∧
      normalizeLines (splitlines (replaceAll content placeholder db)) = .ok ls ∧
      out = finishOutput ls := by
  cases tf with
  | none => simp [runTemplate] at h
  | some content =>
    rw [runTemplate] at h
    split at h
    · simp at h
    · split at h
      · simp at h
      · split at h
        · simp at h
        · split at h
          case h_1 heq => simp at h
          case h_2 heq => simp at h
          case h_3 ls heq =>
            refine ⟨content, ls, rfl, heq, ?_⟩
            split at h
            · exact (Option.some.inj h).symm
            · split at h
              · exact (Option.some.inj h).symm
              · exact (Option.some.inj h).symm

theorem runTemplate_exit0 {db : Str} {tf : Option Str}
    (h : (runTemplate db tf).1 = 0) :
    ∃ content ls, tf = some content ∧
      normalizeLines (splitlines (replaceAll content placeholder db)) = .ok ls ∧
      (runTemplate db tf).2 = some (finishOutput ls) ∧
      containsSub (finishOutput ls) placeholder = false := by
  cases tf with
  | none => simp [runTemplate] at h
  | some content =>
    rw [runTemplate] at h ⊢
    split at h
    · simp at h
    rename_i h1
    rw [if_neg h1]
    split at h
    · simp at h
    rename_i h2
    rw [if_neg h2]
    split at h
    · simp at h
    rename_i h3
    rw [if_neg h3]
    split at h
    case h_1 => simp at h
    case h_2 => simp at h
    rename_i ls heq
    refine ⟨content, ls, rfl, heq, ?_⟩
    split at h
    · simp at h
    rename_i h4
    rw [if_neg h4]
    split at h
    · simp at h
    rename_i h5
    rw [if_neg h5]
    exact ⟨rfl, by simpa using h5⟩

theorem mainRun_written {inp : Inputs} {out : Str}
    (h : (mainRun inp).written = some out) :
    ∃ db, resolveDbId inp.envVar inp.localFile = some db ∧
      (runTemplate db inp.templateFile).2 = some out := by
  rw [mainRun] at h
  split at h
  · simp at h
  case h_2 db hdb => exact ⟨db, hdb, h⟩

theorem mainRun_exit0 {inp : Inputs} (h : (mainRun inp).exitCode = 0) :
    ∃ db, resolveDbId inp.envVar inp.localFile = some db ∧
      (runTemplate db inp.templateFile).1 = 0 := by
  rw [mainRun] at h
  split at h
  · simp at h
  case h_2 db hdb => exact ⟨db, hdb, h⟩

/-! ### Claim theorems -/

/-- C3: the run outcome is a deterministic function of the three inputs
(environment variable, local override file content, template file content);
a pre-existing output file does not influence it, since the script never
reads `wrangler.toml` before overwriting it. -/
theorem c3_deterministic (i1 i2 : Inputs)
    (he : i1.envVar = i2.envVar) (hl : i1.localFile = i2.localFile)
    (ht : i1.templateFile = i2.templateFile) : mainRun i1 = mainRun i2 := by
  cases i1
  cases i2
  simp only at he hl ht
  subst he
  subst hl
  subst ht
  rfl

theorem c3_deterministic_witness :
    mainRun ⟨some uuidW, none, some templW, some "stale output".data⟩
      = mainRun ⟨some uuidW, none, some templW, none⟩ :=
  c3_deterministic _ _ rfl rfl rfl

/-- C5 counterexample: the validator also accepts the UUID body followed by a
trailing newline, because Python `$` matches just before a final newline; so
"returns true exactly for full-string matches" fails on `uuid ++ "\n"`. -/
theorem c5_counterexample :
    validate_database_id (uuidW ++ ['\n']) = true ∧
    uuidGroups (uuidW ++ ['\n']) = false := by decide

/-- C5 (amended): the validator returns true exactly when the entire string
matches the 8-4-4-4-12 case-insensitive hex pattern, or when the string is
such a match followed by one trailing newline (Python `re.match` with `$`). -/
theorem c5_validator_amended (s : Str) :
    validate_database_id s = true ↔
      (uuidGroups s = true ∨ ∃ t, s = t ++ ['\n'] ∧ uuidGroups t = true) := by
  rw [validate_database_id, Bool.or_eq_true]
  constructor
  · intro h
    rcases h with h1 | h1
    · exact Or.inl h1
    · rw [Bool.and_eq_true] at h1
      obtain ⟨hl, hg⟩ := h1
      have hl2 : s.getLast? = some '\n' := of_decide_eq_true hl
      obtain ⟨ys, rfl⟩ := List.getLast?_eq_some_iff.mp hl2
      refine Or.inr ⟨ys, rfl, ?_⟩
      rwa [List.dropLast_concat] at hg
  · intro h
    rcases h with h1 | ⟨t, rfl, ht⟩
    · exact Or.inl h1
    · refine Or.inr ?_
      rw [Bool.and_eq_true]
      exact ⟨decide_eq_true (List.getLast?_concat _), by rwa [List.dropLast_concat]⟩

/-- C6: when neither the environment variable (unset or empty) nor the local
override file provides a value, the run exits with status 1 and the write is
never reached. -/
theorem c6_no_value_exits_1 (inp : Inputs)
    (he : inp.envVar = none ∨ inp.envVar = some [])
    (hl : inp.localFile.bind get_database_id_from_local = none) :
    (mainRun inp).exitCode = 1 ∧ (mainRun inp).written = none := by
  have hres : resolveDbId inp.envVar inp.localFile = none := by
    rcases he with h | h
    · simp [resolveDbId, h, hl]
    · simp [resolveDbId, h, hl]
  constructor <;> simp [mainRun, hres]

theorem c6_witness :
    (mainRun ⟨none, none, some templW, none⟩).exitCode = 1 ∧
    (mainRun ⟨none, none, some templW, none⟩).written = none :=
  c6_no_value_exits_1 _ (Or.inl rfl) rfl

/-- C7: when the template text does not contain the placeholder token, the
run exits with status 1 and the write is never reached. -/
theorem c7_missing_placeholder_exits_1 (inp : Inputs) (t : Str)
    (ht : inp.templateFile = some t) (hp : containsSub t placeholder = false) :
    (mainRun inp).exitCode = 1 ∧ (mainRun inp).written = none := by
  cases hres : resolveDbId inp.envVar inp.localFile with
  | none => constructor <;> simp [mainRun, hres]
  | some db =>
    have hrt : runTemplate db inp.templateFile = (1, none) := by
      rw [ht, runTemplate]
      rw [if_pos (by simp [hp])]
    constructor <;> simp [mainRun, hres, hrt]

theorem c7_witness :
    (mainRun ⟨some uuidW, none, some "no token here\n".data, none⟩).exitCode = 1 ∧
    (mainRun ⟨some uuidW, none, some "no token here\n".data, none⟩).written = none :=
  c7_missing_placeholder_exits_1 _ "no token here\n".data rfl (by decide)

/-- C9 counterexample: on `database_id = " x "` the captured group of the
first occurrence is `" x "`, but the resolver returns its *trimmed* form
`"x"`, not the captured group itself. -/
theorem c9_counterexample :
    matchDbIdAt "database_id = \" x \"".data = some " x ".data ∧
    get_database_id_from_local "database_id = \" x \"".data = some "x".data ∧
    get_database_id_from_local "database_id = \" x \"".data ≠ some " x ".data := by
  decide

/-- C9 (amended): the resolver returns the captured group of the first
(leftmost) occurrence of `database_id = "<value>"` anywhere in the file,
trimmed of surrounding whitespace — regardless of TOML section or comment
markers — and the "not found" signal when no occurrence exists. -/
theorem c9_local_resolver_amended (c : Str) :
    (get_database_id_from_local c = none ↔ ∀ i, matchDbIdAt (c.drop i) = none) ∧
    (∀ w, get_database_id_from_local c = some w ↔
      ∃ i v, matchDbIdAt (c.drop i) = some v ∧ w = pyStrip v ∧
        ∀ j, j < i → matchDbIdAt (c.drop j) = none) := by
  constructor
  · rw [get_database_id_from_local]
    exact Iff.trans Option.map_eq_none' searchDbId_eq_none_iff
  · intro w
    rw [get_database_id_from_local]
    constructor
    · intro h
      obtain ⟨v, hv, rfl⟩ := Option.map_eq_some'.mp h
      obtain ⟨i, hi, hprev⟩ := searchDbId_eq_some_iff.mp hv
      exact ⟨i, v, hi, rfl, hprev⟩
    · rintro ⟨i, v, hi, rfl, hprev⟩
      rw [searchDbId_eq_some_iff.mpr ⟨i, hi, hprev⟩]
      rfl

/-- C2 counterexample: with the environment variable set to a whitespace-only
string (so empty after trimming) and a local file that does provide a valid
value, the run exits fatally with status 1 instead of using the local value. -/
theorem c2_counterexample :
    get_database_id_from_local localW
      = some "abcdefab-abcd-abcd-abcd-abcdefabcdef".data ∧
    (mainRun ⟨some " ".data, some localW, some templW, none⟩).exitCode = 1 ∧
    (mainRun ⟨some " ".data, some localW, some templW, none⟩).written = none := by
  decide

/-- C2 (amended): a set and non-empty environment variable always takes
precedence — its trimmed value is the one used, whatever the local file says;
when the variable is unset or the empty string, the local-file value is used;
but when it is set and non-empty yet whitespace-only, resolution fails
fatally instead of falling back to the local file. -/
theorem c2_precedence_amended (lf : Option Str) :
    (∀ v : Str, pyStrip v ≠ [] → resolveDbId (some v) lf = some (pyStrip v)) ∧
    (∀ w : Str, lf.bind get_database_id_from_local = some w → w ≠ [] →
      pyStrip w ≠ [] →
      resolveDbId none lf = some (pyStrip w) ∧
      resolveDbId (some []) lf = some (pyStrip w)) ∧
    (∀ v : Str, v ≠ [] → pyStrip v = [] → resolveDbId (some v) lf = none) := by
  refine ⟨?_, ?_, ?_⟩
  · intro v hv
    have hvne : v ≠ [] := by
      intro h
      subst h
      exact hv rfl
    simp [resolveDbId, hvne, hv]
  · intro w hw hwne hwstrip
    constructor
    · simp [resolveDbId, hw, hwne, hwstrip]
    · simp [resolveDbId, hw, hwne, hwstrip]
  · intro v hvne hvstrip
    simp [resolveDbId, hvne, hvstrip]

theorem c2_witness :
    resolveDbId (some " x ".data) (some localW) = some (pyStrip " x ".data) ∧
    resolveDbId none (some localW)
      = some (pyStrip "abcdefab-abcd-abcd-abcd-abcdefabcdef".data) ∧
    resolveDbId (some " ".data) (some localW) = none :=
  ⟨(c2_precedence_amended (some localW)).1 " x ".data (by decide),
   ((c2_precedence_amended (some localW)).2.1
      "abcdefab-abcd-abcd-abcd-abcdefabcdef".data (by decide) (by decide)
      (by decide)).1,
   (c2_precedence_amended (some localW)).2.2 " ".data (by decide) (by decide)⟩

/-- C8: a resolved value failing the UUID-shape check makes the run record
the warning, and the failure is non-fatal: the warning branch never alters
control flow, and with the spec's example value `not-a-uuid` and a
well-formed template the run still substitutes and exits with status 0. -/
theorem c8_warning_nonfatal :
    (∀ (envV lf tf po : Option Str) (v : Str),
      resolveDbId envV lf = some v → validate_database_id v = false →
      (mainRun ⟨envV, lf, tf, po⟩).warnedFormat = true) ∧
    ((mainRun ⟨some "not-a-uuid".data, none, some templW, none⟩).exitCode = 0 ∧
     (mainRun ⟨some "not-a-uuid".data, none, some templW, none⟩).warnedFormat = true ∧
     (mainRun ⟨some "not-a-uuid".data, none, some templW, none⟩).written ≠ none) := by
  constructor
  · intro envV lf tf po v hres hval
    simp [mainRun, hres, hval]
  · exact ⟨by decide, by decide, by decide⟩

theorem c8_witness :
    resolveDbId (some "not-a-uuid".data) none = some "not-a-uuid".data ∧
    validate_database_id "not-a-uuid".data = false ∧
    (mainRun ⟨some "not-a-uuid".data, none, some templW, none⟩).warnedFormat = true :=
  ⟨by decide, by decide,
   c8_warning_nonfatal.1 (some "not-a-uuid".data) none (some templW) none
     "not-a-uuid".data (by decide) (by decide)⟩

/-- C4 counterexample: the second line's trimmed form starts with
`database_id = ` and parses as a quoted non-empty value, yet the normalizer
rewrites nothing — it aborts fatally, because the *first* candidate line
carries a whitespace-only quoted value. -/
theorem c4_counterexample :
    splitlines "database_id = \" \"\ndatabase_id = \"ok\"".data
      = ["database_id = \" \"".data, "database_id = \"ok\"".data] ∧
    isCand "database_id = \"ok\"".data = true ∧
    pyStrip ((searchDbId "database_id = \"ok\"".data).getD []) = "ok".data ∧
    normalizeLines (splitlines "database_id = \" \"\ndatabase_id = \"ok\"".data)
      = NormResult.fatalEmpty := by decide

/-- C4 (amended): when the *first* candidate line (trimmed form starts with
`database_id = ` and the extraction regex matches) has a value that strips to
non-empty, the normalizer rewrites exactly that one line as
`<indent>database_id = "<value>"` — preserving its original leading
whitespace — and leaves every other line unchanged.  (If the first candidate
line's quoted value is whitespace-only, the run instead aborts fatally, even
when a later line parses as a quoted non-empty value.) -/
theorem c4_normalizer_amended (pre : List Str) (l v : Str) (post : List Str)
    (hpre : ∀ x ∈ pre, isCand x = false)
    (hk : dbKeyLit.isPrefixOf (pyStrip l) = true)
    (hs : searchDbId l = some v) (hv : pyStrip v ≠ []) :
    normalizeLines (pre ++ l :: post)
      = .ok (pre ++ (l.takeWhile isPySpace ++ dbQuoteLit ++ pyStrip v ++ ['"']) :: post) := by
  have h := normalizeLines_build pre post hpre hk hs hv
  rw [normLine] at h
  exact h

theorem c4_witness :
    (∀ x ∈ ["# comment".data], isCand x = false) ∧
    dbKeyLit.isPrefixOf (pyStrip "  database_id = \"  xyz \" # tail".data) = true ∧
    searchDbId "  database_id = \"  xyz \" # tail".data = some "  xyz ".data ∧
    pyStrip "  xyz ".data ≠ [] ∧
    normalizeLines (["# comment".data]
        ++ "  database_id = \"  xyz \" # tail".data :: ["rest".data])
      = .ok (["# comment".data]
        ++ ("  database_id = \"  xyz \" # tail".data.takeWhile isPySpace
            ++ dbQuoteLit ++ pyStrip "  xyz ".data ++ ['"']) :: ["rest".data]) :=
  ⟨by decide, by decide, by decide, by decide,
   c4_normalizer_amended ["# comment".data] "  database_id = \"  xyz \" # tail".data
     "  xyz ".data ["rest".data] (by decide) (by decide) (by decide) (by decide)⟩

/-- C10 counterexample: a template ending in three newlines yields an output
ending in two — so the output neither ends with exactly one trailing newline
nor has its run of trailing blank lines collapsed. -/
theorem c10_counterexample :
    (mainRun ⟨some uuidW, none, some tBlankTail, none⟩).written
      = some "database_id = \"12345678-1234-1234-1234-123456789012\"\n\n".data ∧
    ("database_id = \"12345678-1234-1234-1234-123456789012\"\n\n".data).getLast?
      = some '\n' ∧
    (("database_id = \"12345678-1234-1234-1234-123456789012\"\n\n".data).dropLast).getLast?
      = some '\n' := by decide

/-- C10 (amended): every output the script writes uses `'\n'` as its only
line terminator — `\r\n`, `\r` and the other splitlines boundaries of the
template are rewritten to `'\n'` — and ends with at least one trailing
newline.  (Trailing blank lines are not collapsed: a template ending in
`n ≥ 2` newlines yields an output ending in `n - 1`.) -/
theorem c10_terminators_amended (inp : Inputs) (out : Str)
    (h : (mainRun inp).written = some out) :
    (∀ c ∈ out, isLineBreak c = true → c = '\n') ∧ out.getLast? = some '\n' := by
  obtain ⟨db, hdb, hw⟩ := mainRun_written h
  obtain ⟨content, ls, htf, hnorm, rfl⟩ := runTemplate_written hw
  obtain ⟨l, v, hl, hs, hv, hin, hall⟩ := normalizeLines_ok_elim _ _ hnorm
  have hbf : ∀ x ∈ ls, ∀ c ∈ x, isLineBreak c = false := by
    intro x hx
    rcases hall x hx with h1 | h1
    · exact splitlines_breakfree h1
    · subst h1
      exact normLine_breakfree (splitlines_breakfree hl) hs
  constructor
  · intro c hc hbrk
    rcases mem_finishOutput hc with h1 | ⟨x, hx, hcx⟩
    · exact h1
    · rw [hbf x hx c hcx] at hbrk
      cases hbrk
  · have ho : joinNl ls ≠ [] := joinNl_ne_nil hin (normLine_ne_nil l v)
    simp only [finishOutput]
    rw [if_neg ho]
    by_cases hl2 : (joinNl ls).getLast? = some '\n'
    · rw [if_pos hl2]
      exact hl2
    · rw [if_neg hl2]
      exact List.getLast?_concat _

theorem c10_witness :
    (∀ c ∈ outW, isLineBreak c = true → c = '\n') ∧ outW.getLast? = some '\n' :=
  c10_terminators_amended ⟨some uuidW, none, some templW, none⟩ outW (by decide)

/-- C1 counterexample: a UUID-shaped secret and a template with exactly one
placeholder occurrence but no `database_id` carrier line make the run exit
with status 1 and produce no output at all, so the pipeline does not always
"produce an output text" under the claim's hypotheses. -/
theorem c1_counterexample :
    uuidGroups uuidW = true ∧
    countOccs tNoCarrier placeholder = 1 ∧
    (mainRun ⟨some uuidW, none, some tNoCarrier, none⟩).exitCode = 1 ∧
    (mainRun ⟨some uuidW, none, some tNoCarrier, none⟩).written = none := by decide

/-- C1 (amended): for every UUID-shaped secret and template with exactly one
placeholder occurrence, whenever the run reaches the write (exit status 0),
the written output contains zero occurrences of the placeholder token and at
least one line of the form `<indent>database_id = "<non-empty value>"`.
(The run may instead abort with status 1 before writing anything.) -/
theorem c1_invariant_amended (u t : Str) (lf po : Option Str)
    (hu : uuidGroups u = true) (h1 : countOccs t placeholder = 1)
    (h0 : (mainRun ⟨some u, lf, some t, po⟩).exitCode = 0) :
    ∃ out, (mainRun ⟨some u, lf, some t, po⟩).written = some out ∧
      countOccs out placeholder = 0 ∧
      ∃ l, l ∈ splitlines out ∧ isGoodDbLine l = true := by
  obtain ⟨db, hdb, hrt⟩ := mainRun_exit0 h0
  obtain ⟨content, ls, htf, hnorm, hw, hnp⟩ := runTemplate_exit0 hrt
  have hwr : (mainRun ⟨some u, lf, some t, po⟩).written = some (finishOutput ls) := by
    simp [mainRun, hdb, hw]
  refine ⟨finishOutput ls, hwr, countOccs_zero hnp, ?_⟩
  obtain ⟨l, v, hl, hs, hv, hin, hall⟩ := normalizeLines_ok_elim _ _ hnorm
  have hbf : ∀ x ∈ ls, ∀ c ∈ x, isLineBreak c = false := by
    intro x hx
    rcases hall x hx with hx1 | hx1
    · exact splitlines_breakfree hx1
    · subst hx1
      exact normLine_breakfree (splitlines_breakfree hl) hs
  refine ⟨normLine l v,
    mem_splitlines_finishOutput hbf hin (normLine_ne_nil l v), ?_⟩
  have hgood := isGoodDbLine_build (l.takeWhile isPySpace) (pyStrip v)
    (fun c hc => List.mem_takeWhile_imp hc) hv
    (fun c hc => (searchDbId_mem hs c (mem_of_mem_pyStrip hc)).2)
  rw [normLine]
  simpa [List.append_assoc] using hgood

theorem c1_witness :
    uuidGroups uuidW = true ∧ countOccs templW placeholder = 1 ∧
    (mainRun ⟨some uuidW, none, some templW, none⟩).exitCode = 0 ∧
    ∃ out, (mainRun ⟨some uuidW, none, some templW, none⟩).written = some out ∧
      countOccs out placeholder = 0 ∧
      ∃ l, l ∈ splitlines out ∧ isGoodDbLine l = true :=
  ⟨by decide, by decide, by decide,
   c1_invariant_amended uuidW templW none none (by decide) (by decide) (by decide)⟩

theorem c5_witness :
    validate_database_id uuidW = true ↔
      (uuidGroups uuidW = true ∨ ∃ t, uuidW = t ++ ['\n'] ∧ uuidGroups t = true) :=
  c5_validator_amended uuidW

theorem c9_witness :
    (get_database_id_from_local localW = none ↔
      ∀ i, matchDbIdAt (localW.drop i) = none) ∧
    (∀ w, get_database_id_from_local localW = some w ↔
      ∃ i v, matchDbIdAt (localW.drop i) = some v ∧ w = pyStrip v ∧
        ∀ j, j < i → matchDbIdAt (localW.drop j) = none) :=
  c9_local_resolver_amended localW
